import Mathlib

/-!
Verification development for the tabf1 terminal dashboard (`f1_dashboard.py`).

The development shallowly embeds the data-access layer of the program:
the disk-persisted response cache (`get_cache` / `set_cache`), the
freshness-checked fetch wrapper (`fetch_with_cache`), the season
reconciliation pass (`get_all_races_season`) and the two-phase last-N
result queries (`get_driver_last_results` / `get_constructor_last_results`).

Modelling conventions:
* JSON values are the inductive `Json`; numbers are modelled as `Int`
  (no claim depends on fractional payload values).
* Timestamps are natural numbers counted in minutes (the unit of the
  `expire_minutes` parameter); the freshness comparison
  `datetime.fromisoformat(now) - cached_time < timedelta(minutes=e)` is
  carried out in `Int` so that a cached time lying in the future (negative
  difference) compares fresh exactly as in Python.
* The stored `"time"` field of a cache entry is a `TimeField`: a valid
  parseable timestamp, a malformed one (`datetime.fromisoformat` raises),
  or missing (then Python's `cached.get("time", now)` substitutes the
  current time).  A cache entry that is not a JSON object at all behaves
  in the source exactly like one with a malformed time (the attribute
  error is caught by the same `except`), so it needs no separate case.
* The network (`requests.get` + `raise_for_status` + `resp.json()`) is an
  oracle `Network : String → Except Unit Json`; `.error` covers non-2xx
  responses, timeouts and unparseable bodies alike.
* Python dictionary reads `d.get(k, default)` are modelled by the total
  `Json.dictGet`, which also returns the default when the value is not an
  object; on envelope-shaped (object) data this is exactly Python's
  behaviour.  Likewise `Json.asArr` models iterating a `"Races"` value,
  returning `[]` when the value is not a JSON array.
-/

/-- JSON-like values, the payload type of the cache and of the network. -/
inductive Json where
  | null : Json
  | bool : Bool → Json
  | num : Int → Json
  | str : String → Json
  | arr : List Json → Json
  | obj : List (String × Json) → Json
deriving Repr

/-- The `"time"` field of a stored cache entry. -/
inductive TimeField where
  | missing : TimeField
  | malformed : String → TimeField
  | valid : Nat → TimeField
deriving Repr, DecidableEq

/-- A stored cache entry `{"time": ..., "data": ...}`; a missing `"data"`
key is modelled as `Json.null`, which is what `cached.get("data")`
returns for it. -/
structure CacheEntry where
  time : TimeField
  data : Json
deriving Repr

/-- The full persisted mapping, in insertion order (Python dicts keep it). -/
abbrev CacheStore := List (String × CacheEntry)

/-- The remote API: endpoint path to parsed JSON body, or a fetch error. -/
abbrev Network := String → Except Unit Json

/-- Association-list lookup with decidable string keys (first match), the
model of Python dict indexing. -/
def assocLookup {α : Type} : List (String × α) → String → Option α
  | [], _ => none
  | (k, v) :: rest, key => if k = key then some v else assocLookup rest key

/-- Association-list update: replace the first binding of the key in
place, or append a new binding — the model of Python dict assignment,
which keeps insertion order. -/
def assocSet {α : Type} : List (String × α) → String → α → List (String × α)
  | [], key, v => [(key, v)]
  | (k, w) :: rest, key, v =>
      if k = key then (key, v) :: rest else (k, w) :: assocSet rest key v

/-- Python truthiness of a JSON value (`if x:`). -/
def Json.truthy : Json → Bool
  | .null => false
  | .bool b => b
  | .num n => n != 0
  | .str s => !s.isEmpty
  | .arr xs => !xs.isEmpty
  | .obj fs => !fs.isEmpty

/-- Field lookup on a JSON object; `none` on a missing key and (totally)
on a non-object value. -/
def Json.getField : Json → String → Option Json
  | .obj fs, key => assocLookup fs key
  | _, _ => none

/-- Model of Python `d.get(key, default)` on envelope data. -/
def Json.dictGet (j : Json) (key : String) (default : Json) : Json :=
  (j.getField key).getD default

/-- Model of Python dict item assignment `d[key] = v` (the source applies
it to `race.copy()`, always a dict for envelope-shaped data; on a
non-object value we totalise to a singleton object). -/
def Json.setField : Json → String → Json → Json
  | .obj fs, key, v => .obj (assocSet fs key v)
  | _, key, v => .obj [(key, v)]

/-- A JSON value used as a list (`for race in races`): its elements when
it is an array, `[]` otherwise. -/
def Json.asArr : Json → List Json
  | .arr xs => xs
  | _ => []

-- Python `repr` of a JSON value, approximately; only its totality
-- matters (it feeds `str(round_num)` for non-string round values).
mutual
def pyRepr : Json → String
  | .null => "None"
  | .bool true => "True"
  | .bool false => "False"
  | .num n => toString n
  | .str s => "\x27" ++ s ++ "\x27"
  | .arr xs => "[" ++ pyReprList xs ++ "]"
  | .obj fs => "\x7b" ++ pyReprFields fs ++ "\x7d"

def pyReprList : List Json → String
  | [] => ""
  | [x] => pyRepr x
  | x :: xs => pyRepr x ++ ", " ++ pyReprList xs

def pyReprFields : List (String × Json) → String
  | [] => ""
  | [(k, v)] => "\x27" ++ k ++ "\x27: " ++ pyRepr v
  | (k, v) :: fs => "\x27" ++ k ++ "\x27: " ++ pyRepr v ++ ", " ++ pyReprFields fs
end

/-- Python `str` of a JSON value (used by f-string interpolation). -/
def pyStr : Json → String
  | .str s => s
  | j => pyRepr j

/-- Freshness test of a stored entry at current time `now` against
`expire_minutes`, lines 55-56 of the source: a missing `"time"` defaults
to `now` (difference 0), a malformed one raises into the `except` branch
(never fresh), a valid one is compared as a signed difference. -/
def freshHit (now expire : Nat) (en : CacheEntry) : Bool :=
  match en.time with
  | .missing => decide ((0 : Int) < (expire : Int))
  | .malformed _ => false
  | .valid t => decide (((now : Int) - (t : Int)) < (expire : Int))

/-- The cache-lookup phase of `fetch_with_cache` (lines 52-60): the cached
payload when `force` is false, the key is present and the entry is fresh;
`none` exactly when the code falls through to the network call. -/
def cacheHit (now expire : Nat) (force : Bool) (cache : CacheStore)
    (key : String) : Option Json :=
  if force then none
  else
    match assocLookup cache key with
    | none => none
    | some en => if freshHit now expire en then some en.data else none

/-- Result of one `fetch_with_cache` call: the returned value (or the
raised error), the cache store as persisted afterwards, and the list of
network GETs actually issued. -/
structure FetchRes where
  res : Except Unit Json
  cache : CacheStore
  calls : List String
deriving Repr

/-- The network phase of `fetch_with_cache` (lines 61-67): a GET to the
endpoint; on success the payload is stored under the key with the current
time and returned, on failure the error propagates and nothing is
written. -/
def networkFetch (net : Network) (now : Nat) (endpoint key : String)
    (cache : CacheStore) : FetchRes :=
  match net endpoint with
  | .ok d => ⟨.ok d, assocSet cache key ⟨.valid now, d⟩, [endpoint]⟩
  | .error _ => ⟨.error (), cache, [endpoint]⟩

/-- `fetch_with_cache(endpoint, key, expire_minutes, force)`, lines 49-67
of the source, with the loaded store passed in and the persisted store
returned (the disk round-trip through `get_cache` / `set_cache` is
modelled by this state threading). -/
def fetch_with_cache (net : Network) (now : Nat) (endpoint key : String)
    (expire_minutes : Nat) (force : Bool) (cache : CacheStore) : FetchRes :=
  match cacheHit now expire_minutes force cache key with
  | some d => ⟨.ok d, cache, []⟩
  | none => networkFetch net now endpoint key cache

/-! ## The persisted cache file (`get_cache` / `set_cache`) -/

/-- Content of a file on disk: either a completely serialized store or a
partially written byte string (a write that died midway). -/
inductive FileData where
  | complete : CacheStore → FileData
  | broken : String → FileData
deriving Repr

/-- The two paths `set_cache` touches: the canonical cache file and the
temporary file `f1_cache.json.tmp`. -/
structure FileSys where
  canonical : Option FileData
  temp : Option FileData
deriving Repr

/-- The `try` block of `set_cache` (lines 40-43): serialize the full
mapping to the temporary path, then `os.replace` it over the canonical
path.  `writeOk` is whether `open`/`json.dump` succeeds (when it fails,
the temp file holds the partial bytes `brokenRaw`), `renameOk` whether
`os.replace` succeeds; the returned flag records whether an exception was
raised.  `os.replace` is atomic: it either fully installs the temp file
or leaves the canonical file untouched. -/
def set_cache_attempt (fs : FileSys) (data : CacheStore) (writeOk : Bool)
    (brokenRaw : String) (renameOk : Bool) : FileSys × Bool :=
  if writeOk then
    if renameOk then
      (⟨some (.complete data), none⟩, false)
    else
      (⟨fs.canonical, some (.complete data)⟩, true)
  else
    (⟨fs.canonical, some (.broken brokenRaw)⟩, true)

/-- `set_cache(data)`, lines 37-46: the `try` block with every exception
swallowed (`except Exception: pass`), so the call always returns, keeping
whatever state the attempt reached. -/
def set_cache (fs : FileSys) (data : CacheStore) (writeOk : Bool)
    (brokenRaw : String) (renameOk : Bool) : FileSys :=
  (set_cache_attempt fs data writeOk brokenRaw renameOk).1

/-! ## Dates and the season reconciliation pass -/

/-- A calendar date, as compared by Python `datetime.date`. -/
structure Date where
  year : Nat
  month : Nat
  day : Nat
deriving Repr, DecidableEq

/-- Date comparison `a <= b`, lexicographic on (year, month, day). -/
def dateLe (a b : Date) : Bool :=
  decide (a.year < b.year) ||
    (decide (a.year = b.year) &&
      (decide (a.month < b.month) ||
        (decide (a.month = b.month) && decide (a.day ≤ b.day))))

/-- Value of a digit run, accumulator form. -/
def digitsToNatAux : List Char → Nat → Option Nat
  | [], acc => some acc
  | c :: cs, acc =>
      if c.isDigit then digitsToNatAux cs (acc * 10 + (c.toNat - 48)) else none

/-- Numeric value of a non-empty all-digit character list, `none`
otherwise (structural stand-in for `String.toNat?`, which does not reduce
definitionally). -/
def digitsToNat? : List Char → Option Nat
  | [] => none
  | cs => digitsToNatAux cs 0

/-- Characters split on a separator, empty pieces preserved — the list
form of splitting a string on a one-character separator. -/
def splitCharsOn (sep : Char) : List Char → List (List Char)
  | [] => [[]]
  | c :: rest =>
      if c = sep then [] :: splitCharsOn sep rest
      else
        match splitCharsOn sep rest with
        | [] => [[c]]
        | g :: gs => (c :: g) :: gs

/-- Parser for `datetime.strptime(s, "%Y-%m-%d").date()`: three
dash-separated decimal components with the month and day in calendar
range; `none` models the `ValueError` path. -/
def parseDate (s : String) : Option Date :=
  match splitCharsOn (Char.ofNat 45) s.data with
  | [ys, ms, ds] =>
    match digitsToNat? ys, digitsToNat? ms, digitsToNat? ds with
    | some y, some m, some d =>
        if 1 ≤ m && m ≤ 12 && 1 ≤ d && d ≤ 31 then some ⟨y, m, d⟩ else none
    | _, _, _ => none
  | _ => none

/-- Python `int(s)` on a decimal string: optional sign then a digit run;
`none` models the `ValueError` path (surrounding-whitespace tolerance is
not modelled; no claim exercises it). -/
def pyInt? (s : String) : Option Int :=
  match s.data with
  | '-' :: rest => (digitsToNat? rest).map (fun n => -(n : Int))
  | '+' :: rest => (digitsToNat? rest).map (fun n => (n : Int))
  | cs => (digitsToNat? cs).map (fun n => (n : Int))

/-- The parsed race date (lines 608-616): `race.get("date", "")`, skipped
when falsy, parsed inside `try`; any non-string value or parse failure
leaves `race_date = None`. -/
def raceDate (race : Json) : Option Date :=
  match race.dictGet "date" (.str "") with
  | .str s => if s.isEmpty then none else parseDate s
  | _ => none

/-- Whether the per-race results fetch is attempted (line 621):
`race_date and race_date <= today`. -/
def shouldFetch (today : Date) (race : Json) : Bool :=
  match raceDate race with
  | some d => dateLe d today
  | none => false

/-- `str(race.get("round"))` as interpolated into the results endpoint. -/
def roundStr (race : Json) : String :=
  match race.getField "round" with
  | some j => pyStr j
  | none => pyStr .null

/-- Endpoint of the season schedule fetch (line 594). -/
def schedEndpoint (season : String) : String :=
  "/ergast/f1/" ++ season ++ ".json?limit=100"

/-- Cache key of the season schedule fetch (line 595). -/
def schedKey (season : String) : String :=
  "race_schedule_" ++ season

/-- Endpoint of a per-race results fetch (line 625). -/
def raceEndpoint (season round : String) : String :=
  "/ergast/f1/" ++ season ++ "/" ++ round ++ "/results.json"

/-- Cache key of a per-race results fetch (line 626). -/
def raceKey (season round : String) : String :=
  "race_results_" ++ season ++ "_" ++ round

/-- Envelope extraction `data.get("MRData", {}).get("RaceTable", {})
.get("Races", [])` as used by the schedule and per-race fetches. -/
def getRaces (data : Json) : List Json :=
  let mr := data.dictGet "MRData" (.obj [])
  let table := mr.dictGet "RaceTable" (.obj [])
  (table.dictGet "Races" (.arr [])).asArr

/-- Future (or undated) race event: `Results = []`, `Status =
"scheduled"` (lines 645-647), assigned in source order. -/
def mkScheduled (race : Json) : Json :=
  (race.setField "Results" (.arr [])).setField "Status" (.str "scheduled")

/-- Past-dated race whose results are unavailable or whose fetch failed:
`Results = []`, `Status = "completed_no_results"` (lines 637-643). -/
def mkNoResults (race : Json) : Json :=
  (race.setField "Results" (.arr [])).setField "Status" (.str "completed_no_results")

/-- Past-dated race with results attached verbatim: `Status =
"completed"` (lines 632-635). -/
def mkCompleted (race : Json) (results : Json) : Json :=
  (race.setField "Results" results).setField "Status" (.str "completed")

/-- Classification of a successfully fetched per-race response (lines
630-639): completed exactly when the response carries a truthy `Results`
value on its first race record. -/
def classify (race idata : Json) : Json :=
  match getRaces idata with
  | [] => mkNoResults race
  | r0 :: _ =>
      if (r0.dictGet "Results" .null).truthy then
        mkCompleted race (r0.dictGet "Results" .null)
      else mkNoResults race

/-- Result of a reconciliation pass: the race events in schedule order,
the cache store afterwards, and the endpoints of the `fetch_with_cache`
invocations that were issued (the per-race attempts; a cache hit inside
an attempt issues no network GET but is still an attempt). -/
structure RecOut where
  events : List Json
  cache : CacheStore
  attempts : List String
deriving Repr

/-- One iteration of the race loop (lines 606-649) on a single race: when
the race date is today or earlier, the per-race results fetch is attempted
(freshness window 60 minutes) and its outcome classified, a fetch error
being absorbed into `completed_no_results`; otherwise the race is marked
scheduled with no fetch. -/
def reconcile_one (net : Network) (now : Nat) (today : Date)
    (season : String) (force : Bool) (race : Json) (cache : CacheStore) :
    Json × CacheStore × List String :=
  if shouldFetch today race then
    match fetch_with_cache net now (raceEndpoint season (roundStr race))
        (raceKey season (roundStr race)) 60 force cache with
    | ⟨.ok idata, c2, _⟩ => (classify race idata, c2, [raceEndpoint season (roundStr race)])
    | ⟨.error _, c2, _⟩ => (mkNoResults race, c2, [raceEndpoint season (roundStr race)])
  else
    (mkScheduled race, cache, [])

/-- The race loop of `get_all_races_season`, threading the cache store
left to right through the per-race fetches. -/
def reconcile_races (net : Network) (now : Nat) (today : Date)
    (season : String) (force : Bool) : List Json → CacheStore → RecOut
  | [], cache => ⟨[], cache, []⟩
  | race :: rest, cache =>
      let (ev, cache1, calls1) := reconcile_one net now today season force race cache
      let r := reconcile_races net now today season force rest cache1
      ⟨ev :: r.events, r.cache, calls1 ++ r.attempts⟩

/-- `get_all_races_season(season, force)`, lines 588-651: fetch the
schedule (failure propagates to the caller), then classify every race of
the schedule in order.  The attempt log starts with the schedule fetch. -/
def get_all_races_season (net : Network) (now : Nat) (today : Date)
    (season : String) (force : Bool) (cache : CacheStore) :
    Except Unit RecOut :=
  match fetch_with_cache net now (schedEndpoint season) (schedKey season) 1440 force cache with
  | ⟨.ok sched, cache1, _⟩ =>
      let r := reconcile_races net now today season force (getRaces sched) cache1
      .ok ⟨r.events, r.cache, schedEndpoint season :: r.attempts⟩
  | ⟨.error _, _, _⟩ => .error ()

/-! ## Two-phase last-N result queries -/

/-- `int(total_str)` with the enclosing `except` defaulting to 0: Python
`int` accepts decimal strings (with sign) and booleans, and raises on
anything else. -/
def totalOf (meta : Json) : Int :=
  match (meta.dictGet "MRData" (.obj [])).dictGet "total" (.str "0") with
  | .str s => (pyInt? s).getD 0
  | .num n => n
  | .bool b => if b then 1 else 0
  | _ => 0

/-- Endpoint of the 1-item metadata fetch of `get_driver_last_results`. -/
def driverMetaEndpoint (driverId : String) : String :=
  "/ergast/f1/drivers/" ++ driverId ++ "/results.json?limit=1"

/-- Cache key of the driver metadata fetch. -/
def driverMetaKey (driverId : String) : String :=
  "driver_last_meta_" ++ driverId

/-- Endpoint of the driver window fetch, lines 565. -/
def driverWindowEndpoint (driverId : String) (limit start : Nat) : String :=
  "/ergast/f1/drivers/" ++ driverId ++ "/results.json?limit=" ++ toString limit
    ++ "&offset=" ++ toString start

/-- Cache key of the driver window fetch, line 566. -/
def driverWindowKey (driverId : String) (limit start : Nat) : String :=
  "driver_last_" ++ driverId ++ "_" ++ toString limit ++ "_" ++ toString start

/-- The window offset `start = max(0, total - limit)` (line 563). -/
def windowStart (total : Int) (limit : Nat) : Nat :=
  (max 0 (total - (limit : Int))).toNat

/-- `get_driver_last_results(driver_id, limit)`, lines 550-567: a 1-item
metadata fetch to read the endpoint-reported total, then the
`[start, start+limit)` window fetch; either fetch failure propagates.
The third component lists the two fetch invocations. -/
def get_driver_last_results (net : Network) (now : Nat) (driverId : String)
    (limit : Nat) (cache : CacheStore) :
    Except Unit (List Json × CacheStore × List String) :=
  match fetch_with_cache net now (driverMetaEndpoint driverId) (driverMetaKey driverId) 1440 false cache with
  | ⟨.error _, _, _⟩ => .error ()
  | ⟨.ok meta, cache1, _⟩ =>
      let start := windowStart (totalOf meta) limit
      match fetch_with_cache net now (driverWindowEndpoint driverId limit start)
          (driverWindowKey driverId limit start) 1440 false cache1 with
      | ⟨.error _, _, _⟩ => .error ()
      | ⟨.ok data, cache2, _⟩ =>
          .ok (getRaces data, cache2,
            [driverMetaEndpoint driverId, driverWindowEndpoint driverId limit start])

/-- Endpoint of the 1-item metadata fetch of
`get_constructor_last_results` (line 573). -/
def constructorMetaEndpoint (constructorId : String) : String :=
  "/ergast/f1/constructors/" ++ constructorId ++ "/results.json?limit=1"

/-- Cache key of the constructor metadata fetch (line 574). -/
def constructorMetaKey (constructorId : String) : String :=
  "constructor_last_meta_" ++ constructorId

/-- Endpoint of the constructor window fetch (line 583). -/
def constructorWindowEndpoint (constructorId : String) (limit start : Nat) : String :=
  "/ergast/f1/constructors/" ++ constructorId ++ "/results.json?limit="
    ++ toString limit ++ "&offset=" ++ toString start

/-- Cache key of the constructor window fetch (line 584). -/
def constructorWindowKey (constructorId : String) (limit start : Nat) : String :=
  "constructor_last_" ++ constructorId ++ "_" ++ toString limit ++ "_" ++ toString start

/-- `get_constructor_last_results(constructor_id, limit)`, lines 570-585,
same two-phase shape as the driver query. -/
def get_constructor_last_results (net : Network) (now : Nat)
    (constructorId : String) (limit : Nat) (cache : CacheStore) :
    Except Unit (List Json × CacheStore × List String) :=
  match fetch_with_cache net now (constructorMetaEndpoint constructorId)
      (constructorMetaKey constructorId) 1440 false cache with
  | ⟨.error _, _, _⟩ => .error ()
  | ⟨.ok meta, cache1, _⟩ =>
      let start := windowStart (totalOf meta) limit
      match fetch_with_cache net now (constructorWindowEndpoint constructorId limit start)
          (constructorWindowKey constructorId limit start) 1440 false cache1 with
      | ⟨.error _, _, _⟩ => .error ()
      | ⟨.ok data, cache2, _⟩ =>
          .ok (getRaces data, cache2,
            [constructorMetaEndpoint constructorId,
             constructorWindowEndpoint constructorId limit start])

/-- A key holds an entry that the freshness test accepts and whose payload
is `d`: exactly the state in which a forced-off fetch is served from the
cache with no store change and no network traffic. -/
def FreshAt (now e : Nat) (c : CacheStore) (key : String) (d : Json) : Prop :=
  ∃ en, assocLookup c key = some en ∧ freshHit now e en = true ∧ en.data = d

/-- The per-event invariant of the reconciliation pass: the `Status` field
is exactly one of the three status strings (they are pairwise distinct, so
exactly one equation holds), the attached `Results` value is truthy
(non-empty) precisely when the status is `completed`, and in the two
non-completed statuses the `Results` field is the literal empty list. -/
def StatusOk (ev : Json) : Prop :=
  (ev.getField "Status" = some (.str "scheduled") ∨
      ev.getField "Status" = some (.str "completed") ∨
      ev.getField "Status" = some (.str "completed_no_results")) ∧
    ((ev.dictGet "Results" .null).truthy = true ↔
      ev.getField "Status" = some (.str "completed")) ∧
    (ev.getField "Status" ≠ some (.str "completed") →
      ev.getField "Results" = some (.arr []))

/-! ### Concrete fixtures used by the witnesses -/

/-- A race of the concrete test schedule dated before the test date. -/
def wRace1 : Json := .obj [("round", .str "1"), ("date", .str "2025-03-16")]

/-- A race of the concrete test schedule dated after the test date. -/
def wRace2 : Json := .obj [("round", .str "2"), ("date", .str "2025-12-25")]

/-- The concrete schedule envelope holding the two test races. -/
def wSched : Json :=
  .obj [("MRData", .obj [("RaceTable", .obj [("Races", .arr [wRace1, wRace2])])])]

/-- A single result record of the completed test race. -/
def wResRec : Json := .obj [("position", .str "1")]

/-- The per-race results envelope of the completed test race. -/
def wResData : Json :=
  .obj [("MRData", .obj [("RaceTable", .obj [("Races",
    .arr [.obj [("Results", .arr [wResRec])]])])])]

/-- The current date used by the concrete reconciliation runs. -/
def wToday : Date := ⟨2025, 6, 1⟩

/-- A network oracle serving the concrete schedule and the results of
race 1, and failing every other endpoint. -/
def wNet : Network := fun ep =>
  if ep = schedEndpoint "2025" then .ok wSched
  else if ep = raceEndpoint "2025" "1" then .ok wResData
  else .error ()

/-- A network oracle serving only the schedule, every per-race results
fetch failing. -/
def wNetFail : Network := fun ep =>
  if ep = schedEndpoint "2025" then .ok wSched else .error ()

/-- The result of running the reconciliation pass with `wNet` at time 100
on the empty store: race 1 completed with its result attached, race 2
scheduled, both fetched payloads cached at time 100. -/
def wOut : RecOut :=
  ⟨[mkCompleted wRace1 (.arr [wResRec]), mkScheduled wRace2],
    [(schedKey "2025", ⟨.valid 100, wSched⟩),
      (raceKey "2025" "1", ⟨.valid 100, wResData⟩)],
    [schedEndpoint "2025", raceEndpoint "2025" "1"]⟩

/-- A last-N metadata envelope reporting 25 total results. -/
def wMeta : Json := .obj [("MRData", .obj [("total", .str "25")])]

/-- A network oracle for the last-N queries: the two metadata endpoints
answer `wMeta`, every other endpoint an empty envelope. -/
def wNetLast : Network := fun ep =>
  if ep = driverMetaEndpoint "ham" then .ok wMeta
  else if ep = constructorMetaEndpoint "fer" then .ok wMeta
  else .ok (.obj [])

/-! ## Basic lemmas: stores, JSON objects, cache keys -/

theorem assocLookup_assocSet_self {α : Type} (l : List (String × α)) (key : String) (v : α) :
    assocLookup (assocSet l key v) key = some v := by
  induction l with
  | nil => simp [assocSet, assocLookup]
  | cons p rest ih =>
    obtain ⟨k, w⟩ := p
    by_cases h : k = key
    · simp [assocSet, h, assocLookup]
    · simp [assocSet, h, assocLookup, ih]

theorem assocLookup_assocSet_ne {α : Type} (l : List (String × α)) (key k' : String)
    (v : α) (h : k' ≠ key) :
    assocLookup (assocSet l key v) k' = assocLookup l k' := by
  induction l with
  | nil => simp [assocSet, assocLookup, Ne.symm h]
  | cons p rest ih =>
    obtain ⟨k, w⟩ := p
    by_cases hk : k = key
    · subst hk
      simp [assocSet, assocLookup, Ne.symm h]
    · by_cases hk' : k = k'
      · simp [assocSet, hk, assocLookup, hk', h]
      · simp [assocSet, hk, assocLookup, hk', ih]

theorem getField_setField_self (j : Json) (key : String) (v : Json) :
    (j.setField key v).getField key = some v := by
  cases j <;> simp [Json.setField, Json.getField, assocLookup_assocSet_self, assocLookup]

theorem getField_setField_ne (j : Json) (key k' : String) (v : Json) (h : k' ≠ key) :
    (j.setField key v).getField k' = j.getField k' := by
  cases j <;>
    simp [Json.setField, Json.getField, assocLookup, Ne.symm h, assocLookup_assocSet_ne _ _ _ _ h]

theorem schedKey_ne_raceKey (season season2 round : String) :
    schedKey season ≠ raceKey season2 round := by
  intro h
  have hd := congrArg String.data h
  simp only [schedKey, raceKey, String.data_append] at hd
  simp at hd

theorem raceKey_inj (season r1 r2 : String) (h : raceKey season r1 = raceKey season r2) :
    r1 = r2 := by
  have hd := congrArg String.data h
  simp only [raceKey, String.data_append, List.append_assoc] at hd
  have h1 := List.append_cancel_left hd
  have h2 := List.append_cancel_left h1
  have h3 := List.append_cancel_left h2
  exact String.ext h3

/-! ## Lemmas about `fetch_with_cache` -/

theorem fetch_with_cache_hit (net : Network) (now : Nat) (ep key : String) (e : Nat)
    (f : Bool) (c : CacheStore) (d : Json) (h : cacheHit now e f c key = some d) :
    fetch_with_cache net now ep key e f c = ⟨.ok d, c, []⟩ := by
  unfold fetch_with_cache
  rw [h]

theorem fetch_with_cache_miss (net : Network) (now : Nat) (ep key : String) (e : Nat)
    (f : Bool) (c : CacheStore) (h : cacheHit now e f c key = none) :
    fetch_with_cache net now ep key e f c = networkFetch net now ep key c := by
  unfold fetch_with_cache
  rw [h]

theorem cacheHit_congr (now e : Nat) (f : Bool) (c c' : CacheStore) (key : String)
    (h : assocLookup c' key = assocLookup c key) :
    cacheHit now e f c' key = cacheHit now e f c key := by
  unfold cacheHit
  rw [h]

theorem fetch_cache_cases (net : Network) (now : Nat) (ep key : String) (e : Nat)
    (f : Bool) (c : CacheStore) :
    (fetch_with_cache net now ep key e f c).cache = c ∨
      (cacheHit now e f c key = none ∧ ∃ d, net ep = .ok d ∧
        (fetch_with_cache net now ep key e f c).cache = assocSet c key ⟨.valid now, d⟩) := by
  cases hh : cacheHit now e f c key with
  | some d => rw [fetch_with_cache_hit net now ep key e f c d hh]; left; rfl
  | none =>
    rw [fetch_with_cache_miss net now ep key e f c hh]
    cases hn : net ep with
    | ok d => right; exact ⟨rfl, d, rfl, by simp [networkFetch, hn]⟩
    | error u => left; simp [networkFetch, hn]

theorem fetch_frame (net : Network) (now : Nat) (ep key : String) (e : Nat)
    (f : Bool) (c : CacheStore) (k' : String) (h : k' ≠ key) :
    assocLookup (fetch_with_cache net now ep key e f c).cache k' = assocLookup c k' := by
  rcases fetch_cache_cases net now ep key e f c with hc | ⟨-, d, -, hc⟩ <;> rw [hc]
  exact assocLookup_assocSet_ne c key k' _ h

theorem fetch_err (net : Network) (now : Nat) (ep key : String) (e : Nat)
    (f : Bool) (c : CacheStore)
    (h : (fetch_with_cache net now ep key e f c).res = .error ()) :
    cacheHit now e f c key = none ∧ net ep = .error () ∧
      fetch_with_cache net now ep key e f c = ⟨.error (), c, [ep]⟩ := by
  cases hh : cacheHit now e f c key with
  | some d => rw [fetch_with_cache_hit net now ep key e f c d hh] at h; simp at h
  | none =>
    rw [fetch_with_cache_miss net now ep key e f c hh] at h ⊢
    cases hn : net ep with
    | ok d => rw [networkFetch, hn] at h; simp at h
    | error u => cases u; exact ⟨rfl, rfl, by simp [networkFetch, hn]⟩

theorem freshAt_cacheHit (now e : Nat) (c : CacheStore) (key : String) (d : Json)
    (h : FreshAt now e c key d) : cacheHit now e false c key = some d := by
  obtain ⟨en, hl, hf, hd⟩ := h
  simp [cacheHit, hl, hf, hd]

theorem cacheHit_freshAt (now e : Nat) (c : CacheStore) (key : String) (d : Json)
    (h : cacheHit now e false c key = some d) : FreshAt now e c key d := by
  unfold cacheHit at h
  cases hl : assocLookup c key with
  | none => rw [hl] at h; simp at h
  | some en =>
    rw [hl] at h
    by_cases hf : freshHit now e en = true
    · refine ⟨en, hl, hf, ?_⟩
      simp [hf] at h
      exact h
    · simp [hf] at h

theorem fetch_fresh (net : Network) (now : Nat) (ep key : String) (e : Nat)
    (c : CacheStore) (d : Json) (h : FreshAt now e c key d) :
    fetch_with_cache net now ep key e false c = ⟨.ok d, c, []⟩ :=
  fetch_with_cache_hit net now ep key e false c d (freshAt_cacheHit now e c key d h)

theorem fetch_ok_fresh (net : Network) (now : Nat) (ep key : String) (e : Nat)
    (c : CacheStore) (d : Json) (he : 0 < e)
    (h : (fetch_with_cache net now ep key e false c).res = .ok d) :
    FreshAt now e (fetch_with_cache net now ep key e false c).cache key d := by
  cases hh : cacheHit now e false c key with
  | some x =>
    rw [fetch_with_cache_hit net now ep key e false c x hh] at h ⊢
    have hx : x = d := by injection h with h1
    subst hx
    exact cacheHit_freshAt now e c key x hh
  | none =>
    rw [fetch_with_cache_miss net now ep key e false c hh] at h ⊢
    cases hn : net ep with
    | ok y =>
      rw [networkFetch, hn] at h ⊢
      have hy : y = d := by injection h with h1
      subst hy
      refine ⟨⟨.valid now, y⟩, assocLookup_assocSet_self c key _, ?_, rfl⟩
      simp only [freshHit, decide_eq_true_eq, sub_self]
      exact_mod_cast he
    | error u => rw [networkFetch, hn] at h; simp at h

/-! ## Lemmas about the reconciliation loop -/

theorem reconcile_one_noFetch (net : Network) (now : Nat) (today : Date)
    (season : String) (force : Bool) (race : Json) (cache : CacheStore)
    (h : shouldFetch today race = false) :
    reconcile_one net now today season force race cache = (mkScheduled race, cache, []) := by
  simp [reconcile_one, h]

theorem reconcile_one_ok (net : Network) (now : Nat) (today : Date)
    (season : String) (force : Bool) (race : Json) (cache : CacheStore)
    (idata : Json) (c2 : CacheStore) (calls : List String)
    (h : shouldFetch today race = true)
    (hf : fetch_with_cache net now (raceEndpoint season (roundStr race))
        (raceKey season (roundStr race)) 60 force cache = ⟨.ok idata, c2, calls⟩) :
    reconcile_one net now today season force race cache =
      (classify race idata, c2, [raceEndpoint season (roundStr race)]) := by
  simp [reconcile_one, h, hf]

theorem reconcile_one_err (net : Network) (now : Nat) (today : Date)
    (season : String) (force : Bool) (race : Json) (cache : CacheStore)
    (c2 : CacheStore) (calls : List String)
    (h : shouldFetch today race = true)
    (hf : fetch_with_cache net now (raceEndpoint season (roundStr race))
        (raceKey season (roundStr race)) 60 force cache = ⟨.error (), c2, calls⟩) :
    reconcile_one net now today season force race cache =
      (mkNoResults race, c2, [raceEndpoint season (roundStr race)]) := by
  simp [reconcile_one, h, hf]

theorem reconcile_one_cache (net : Network) (now : Nat) (today : Date)
    (season : String) (force : Bool) (race : Json) (cache : CacheStore) :
    (reconcile_one net now today season force race cache).2.1 =
      if shouldFetch today race then
        (fetch_with_cache net now (raceEndpoint season (roundStr race))
          (raceKey season (roundStr race)) 60 force cache).cache
      else cache := by
  by_cases h : shouldFetch today race
  · cases hfr : fetch_with_cache net now (raceEndpoint season (roundStr race))
        (raceKey season (roundStr race)) 60 force cache with
    | mk res c2 calls => cases res <;> simp [reconcile_one, h, hfr]
  · simp [reconcile_one, h]

theorem reconcile_one_attempts (net : Network) (now : Nat) (today : Date)
    (season : String) (force : Bool) (race : Json) (cache : CacheStore) :
    (reconcile_one net now today season force race cache).2.2 =
      if shouldFetch today race then [raceEndpoint season (roundStr race)] else [] := by
  by_cases h : shouldFetch today race
  · cases hfr : fetch_with_cache net now (raceEndpoint season (roundStr race))
        (raceKey season (roundStr race)) 60 force cache with
    | mk res c2 calls => cases res <;> simp [reconcile_one, h, hfr]
  · simp [reconcile_one, h]

theorem reconcile_races_cons (net : Network) (now : Nat) (today : Date)
    (season : String) (force : Bool) (race : Json) (rest : List Json) (cache : CacheStore) :
    reconcile_races net now today season force (race :: rest) cache =
      ⟨(reconcile_one net now today season force race cache).1 ::
          (reconcile_races net now today season force rest
            (reconcile_one net now today season force race cache).2.1).events,
        (reconcile_races net now today season force rest
          (reconcile_one net now today season force race cache).2.1).cache,
        (reconcile_one net now today season force race cache).2.2 ++
          (reconcile_races net now today season force rest
            (reconcile_one net now today season force race cache).2.1).attempts⟩ := rfl

theorem reconcile_one_cache_lookup (net : Network) (now : Nat) (today : Date)
    (season : String) (force : Bool) (race : Json) (cache : CacheStore) (k : String) :
    assocLookup (reconcile_one net now today season force race cache).2.1 k =
        assocLookup cache k ∨
      ∃ round d, k = raceKey season round ∧ net (raceEndpoint season round) = .ok d ∧
        assocLookup (reconcile_one net now today season force race cache).2.1 k =
          some ⟨.valid now, d⟩ := by
  rw [reconcile_one_cache]
  by_cases h : shouldFetch today race
  · rw [if_pos h]
    rcases fetch_cache_cases net now (raceEndpoint season (roundStr race))
        (raceKey season (roundStr race)) 60 force cache with hc | ⟨-, d, hn, hc⟩
    · left; rw [hc]
    · by_cases hk : k = raceKey season (roundStr race)
      · right
        refine ⟨roundStr race, d, hk, hn, ?_⟩
        rw [hc, hk]
        exact assocLookup_assocSet_self cache _ _
      · left
        rw [hc]
        exact assocLookup_assocSet_ne cache _ k _ hk
  · rw [if_neg h]; left; rfl

theorem reconcile_cache_lookup (net : Network) (now : Nat) (today : Date)
    (season : String) (force : Bool) (races : List Json) (cache : CacheStore) (k : String) :
    assocLookup (reconcile_races net now today season force races cache).cache k =
        assocLookup cache k ∨
      ∃ round d, k = raceKey season round ∧ net (raceEndpoint season round) = .ok d ∧
        assocLookup (reconcile_races net now today season force races cache).cache k =
          some ⟨.valid now, d⟩ := by
  induction races generalizing cache with
  | nil => left; rfl
  | cons race rest ih =>
    rw [reconcile_races_cons]
    rcases ih (reconcile_one net now today season force race cache).2.1 with h2 | ⟨round, d, hk, hn, h2⟩
    · rcases reconcile_one_cache_lookup net now today season force race cache k with
        h1 | ⟨round, d, hk, hn, h1⟩
      · left; rw [h2, h1]
      · right; exact ⟨round, d, hk, hn, by rw [h2, h1]⟩
    · right; exact ⟨round, d, hk, hn, h2⟩

theorem reconcile_preserves_other_keys (net : Network) (now : Nat) (today : Date)
    (season : String) (force : Bool) (races : List Json) (cache : CacheStore) (k : String)
    (hk : ∀ round, k ≠ raceKey season round) :
    assocLookup (reconcile_races net now today season force races cache).cache k =
      assocLookup cache k := by
  rcases reconcile_cache_lookup net now today season force races cache k with
    h | ⟨round, d, hkey, -, -⟩
  · exact h
  · exact absurd hkey (hk round)


theorem reconcile_one_preserves_fresh (net : Network) (now : Nat) (today : Date)
    (season : String) (race : Json) (cache : CacheStore) (k : String) (d : Json)
    (h : FreshAt now 60 cache k d) :
    FreshAt now 60 (reconcile_one net now today season false race cache).2.1 k d := by
  rw [reconcile_one_cache]
  by_cases hsf : shouldFetch today race
  · rw [if_pos hsf]
    by_cases hk : k = raceKey season (roundStr race)
    · subst hk
      rw [fetch_with_cache_hit net now (raceEndpoint season (roundStr race))
        (raceKey season (roundStr race)) 60 false cache d
        (freshAt_cacheHit now 60 cache (raceKey season (roundStr race)) d h)]
      exact h
    · obtain ⟨en, hl, hf, hd⟩ := h
      refine ⟨en, ?_, hf, hd⟩
      rw [fetch_frame net now (raceEndpoint season (roundStr race))
        (raceKey season (roundStr race)) 60 false cache k hk]
      exact hl
  · rw [if_neg hsf]; exact h

theorem reconcile_preserves_fresh (net : Network) (now : Nat) (today : Date)
    (season : String) (races : List Json) (cache : CacheStore) (k : String) (d : Json)
    (h : FreshAt now 60 cache k d) :
    FreshAt now 60 (reconcile_races net now today season false races cache).cache k d := by
  induction races generalizing cache with
  | nil => exact h
  | cons race rest ih =>
    rw [reconcile_races_cons]
    exact ih (reconcile_one net now today season false race cache).2.1
      (reconcile_one_preserves_fresh net now today season race cache k d h)

theorem reconcile_self_stable (net : Network) (now : Nat) (today : Date)
    (season : String) (races : List Json) (cache : CacheStore) :
    reconcile_races net now today season false races
        ((reconcile_races net now today season false races cache).cache) =
      reconcile_races net now today season false races cache := by
  induction races generalizing cache with
  | nil => rfl
  | cons race rest ih =>
    by_cases hsf : shouldFetch today race
    · cases hfr : fetch_with_cache net now (raceEndpoint season (roundStr race))
          (raceKey season (roundStr race)) 60 false cache with
      | mk res c1 calls =>
        cases res with
        | ok idata =>
          have h1 := reconcile_one_ok net now today season false race cache idata c1 calls hsf hfr
          have hres : (fetch_with_cache net now (raceEndpoint season (roundStr race))
              (raceKey season (roundStr race)) 60 false cache).res = .ok idata := by
            rw [hfr]
          have hfresh1 : FreshAt now 60 c1 (raceKey season (roundStr race)) idata := by
            have hx := fetch_ok_fresh net now (raceEndpoint season (roundStr race))
              (raceKey season (roundStr race)) 60 cache idata (by norm_num) hres
            rw [hfr] at hx
            exact hx
          have hfresh2 : FreshAt now 60
              (reconcile_races net now today season false rest c1).cache
              (raceKey season (roundStr race)) idata :=
            reconcile_preserves_fresh net now today season rest c1 _ _ hfresh1
          have hstep2 := reconcile_one_ok net now today season false race
            (reconcile_races net now today season false rest c1).cache idata
            (reconcile_races net now today season false rest c1).cache []
            hsf (fetch_fresh net now (raceEndpoint season (roundStr race))
              (raceKey season (roundStr race)) 60 _ idata hfresh2)
          rw [reconcile_races_cons net now today season false race rest cache, h1]
          dsimp only
          rw [reconcile_races_cons net now today season false race rest
            ((reconcile_races net now today season false rest c1).cache), hstep2]
          dsimp only
          rw [ih c1]
        | error u =>
          cases u
          have hres : (fetch_with_cache net now (raceEndpoint season (roundStr race))
              (raceKey season (roundStr race)) 60 false cache).res = .error () := by
            rw [hfr]
          obtain ⟨hmiss, hnet, hfull⟩ := fetch_err net now (raceEndpoint season (roundStr race))
            (raceKey season (roundStr race)) 60 false cache hres
          have h1 := reconcile_one_err net now today season false race cache cache
            [raceEndpoint season (roundStr race)] hsf hfull
          have hlook : assocLookup
              (reconcile_races net now today season false rest cache).cache
              (raceKey season (roundStr race)) =
              assocLookup cache (raceKey season (roundStr race)) := by
            rcases reconcile_cache_lookup net now today season false rest cache
                (raceKey season (roundStr race)) with hl | ⟨round, dd, hkey, hn, -⟩
            · exact hl
            · have hrr : roundStr race = round := raceKey_inj season _ _ hkey
              rw [← hrr] at hn
              rw [hn] at hnet
              exact absurd hnet (by simp)
          have hmiss2 : cacheHit now 60 false
              (reconcile_races net now today season false rest cache).cache
              (raceKey season (roundStr race)) = none := by
            rw [cacheHit_congr now 60 false cache _ (raceKey season (roundStr race)) hlook]
            exact hmiss
          have hfull2 : fetch_with_cache net now (raceEndpoint season (roundStr race))
              (raceKey season (roundStr race)) 60 false
              (reconcile_races net now today season false rest cache).cache =
              ⟨.error (), (reconcile_races net now today season false rest cache).cache,
                [raceEndpoint season (roundStr race)]⟩ := by
            rw [fetch_with_cache_miss net now _ _ 60 false _ hmiss2]
            simp [networkFetch, hnet]
          have hstep2 := reconcile_one_err net now today season false race
            (reconcile_races net now today season false rest cache).cache
            (reconcile_races net now today season false rest cache).cache
            [raceEndpoint season (roundStr race)] hsf hfull2
          rw [reconcile_races_cons net now today season false race rest cache, h1]
          dsimp only
          rw [reconcile_races_cons net now today season false race rest
            ((reconcile_races net now today season false rest cache).cache), hstep2]
          dsimp only
          rw [ih cache]
    · have hsf' : shouldFetch today race = false := by simpa using hsf
      have h1 := reconcile_one_noFetch net now today season false race cache hsf'
      have hstep2 := reconcile_one_noFetch net now today season false race
        (reconcile_races net now today season false rest cache).cache hsf'
      rw [reconcile_races_cons net now today season false race rest cache, h1]
      dsimp only
      rw [reconcile_races_cons net now today season false race rest
        ((reconcile_races net now today season false rest cache).cache), hstep2]
      dsimp only
      rw [ih cache]

theorem reconcile_events_length (net : Network) (now : Nat) (today : Date)
    (season : String) (force : Bool) (races : List Json) (cache : CacheStore) :
    (reconcile_races net now today season force races cache).events.length = races.length := by
  induction races generalizing cache with
  | nil => rfl
  | cons race rest ih =>
    rw [reconcile_races_cons]
    simp [ih]

theorem reconcile_attempts (net : Network) (now : Nat) (today : Date)
    (season : String) (force : Bool) (races : List Json) (cache : CacheStore) :
    (reconcile_races net now today season force races cache).attempts =
      (races.filter (shouldFetch today)).map
        (fun ra => raceEndpoint season (roundStr ra)) := by
  induction races generalizing cache with
  | nil => rfl
  | cons race rest ih =>
    rw [reconcile_races_cons, reconcile_one_attempts]
    by_cases hsf : shouldFetch today race
    · simp [hsf, List.filter_cons, ih]
    · have hsf' : shouldFetch today race = false := by simpa using hsf
      simp [hsf', List.filter_cons, ih]

theorem reconcile_events_future (net : Network) (now : Nat) (today : Date)
    (season : String) (force : Bool) (races : List Json) (cache : CacheStore) (i : Nat)
    (hi : i < races.length) (hsf : shouldFetch today races[i] = false) :
    (reconcile_races net now today season force races cache).events[i]? =
      some (mkScheduled races[i]) := by
  induction races generalizing cache i with
  | nil => exact absurd hi (by simp)
  | cons race rest ih =>
    rw [reconcile_races_cons]
    cases i with
    | zero =>
      have h1 := reconcile_one_noFetch net now today season force race cache
        (by simpa using hsf)
      rw [h1]
      simp
    | succ n =>
      have hn : n < rest.length := by simpa using hi
      have hsf' : shouldFetch today rest[n] = false := by simpa using hsf
      simpa using ih (reconcile_one net now today season force race cache).2.1 n hn hsf'

/-! ## Event shape lemmas and the per-event status invariant -/

theorem getField_mkScheduled_status (race : Json) :
    (mkScheduled race).getField "Status" = some (.str "scheduled") :=
  getField_setField_self _ _ _

theorem getField_mkScheduled_results (race : Json) :
    (mkScheduled race).getField "Results" = some (.arr []) := by
  unfold mkScheduled
  rw [getField_setField_ne _ _ _ _ (by decide), getField_setField_self]

theorem getField_mkNoResults_status (race : Json) :
    (mkNoResults race).getField "Status" = some (.str "completed_no_results") :=
  getField_setField_self _ _ _

theorem getField_mkNoResults_results (race : Json) :
    (mkNoResults race).getField "Results" = some (.arr []) := by
  unfold mkNoResults
  rw [getField_setField_ne _ _ _ _ (by decide), getField_setField_self]

theorem getField_mkCompleted_status (race results : Json) :
    (mkCompleted race results).getField "Status" = some (.str "completed") :=
  getField_setField_self _ _ _

theorem getField_mkCompleted_results (race results : Json) :
    (mkCompleted race results).getField "Results" = some results := by
  unfold mkCompleted
  rw [getField_setField_ne _ _ _ _ (by decide), getField_setField_self]

theorem statusOk_mkScheduled (race : Json) : StatusOk (mkScheduled race) := by
  refine ⟨Or.inl (getField_mkScheduled_status race), ?_, fun _ => getField_mkScheduled_results race⟩
  rw [getField_mkScheduled_status race]
  unfold Json.dictGet
  rw [getField_mkScheduled_results race]
  simp [Json.truthy]

theorem statusOk_mkNoResults (race : Json) : StatusOk (mkNoResults race) := by
  refine ⟨Or.inr (Or.inr (getField_mkNoResults_status race)), ?_,
    fun _ => getField_mkNoResults_results race⟩
  rw [getField_mkNoResults_status race]
  unfold Json.dictGet
  rw [getField_mkNoResults_results race]
  simp [Json.truthy]

theorem statusOk_mkCompleted (race results : Json) (h : results.truthy = true) :
    StatusOk (mkCompleted race results) := by
  refine ⟨Or.inr (Or.inl (getField_mkCompleted_status race results)), ?_, ?_⟩
  · rw [getField_mkCompleted_status race results]
    unfold Json.dictGet
    rw [getField_mkCompleted_results race results]
    simpa using h
  · intro hne
    exact absurd (getField_mkCompleted_status race results) hne

theorem classify_statusOk (race idata : Json) : StatusOk (classify race idata) := by
  unfold classify
  cases getRaces idata with
  | nil => exact statusOk_mkNoResults race
  | cons r0 rs =>
    dsimp only
    by_cases ht : (r0.dictGet "Results" .null).truthy = true
    · rw [if_pos ht]
      exact statusOk_mkCompleted race _ ht
    · rw [if_neg ht]
      exact statusOk_mkNoResults race

theorem reconcile_one_statusOk (net : Network) (now : Nat) (today : Date)
    (season : String) (force : Bool) (race : Json) (cache : CacheStore) :
    StatusOk (reconcile_one net now today season force race cache).1 := by
  by_cases hsf : shouldFetch today race
  · cases hfr : fetch_with_cache net now (raceEndpoint season (roundStr race))
        (raceKey season (roundStr race)) 60 force cache with
    | mk res c2 calls =>
      cases res with
      | ok idata =>
        rw [reconcile_one_ok net now today season force race cache idata c2 calls hsf hfr]
        exact classify_statusOk race idata
      | error u =>
        cases u
        rw [reconcile_one_err net now today season force race cache c2 calls hsf hfr]
        exact statusOk_mkNoResults race
  · rw [reconcile_one_noFetch net now today season force race cache (by simpa using hsf)]
    exact statusOk_mkScheduled race

theorem reconcile_statusOk (net : Network) (now : Nat) (today : Date)
    (season : String) (force : Bool) (races : List Json) (cache : CacheStore) :
    (reconcile_races net now today season force races cache).events.Forall StatusOk := by
  induction races generalizing cache with
  | nil => trivial
  | cons race rest ih =>
    rw [reconcile_races_cons]
    rw [show ((⟨(reconcile_one net now today season force race cache).1 ::
        (reconcile_races net now today season force rest
          (reconcile_one net now today season force race cache).2.1).events,
        (reconcile_races net now today season force rest
          (reconcile_one net now today season force race cache).2.1).cache,
        (reconcile_one net now today season force race cache).2.2 ++
          (reconcile_races net now today season force rest
            (reconcile_one net now today season force race cache).2.1).attempts⟩ :
          RecOut).events) = (reconcile_one net now today season force race cache).1 ::
        (reconcile_races net now today season force rest
          (reconcile_one net now today season force race cache).2.1).events from rfl,
      List.forall_cons]
    exact ⟨reconcile_one_statusOk net now today season force race cache,
      ih (reconcile_one net now today season force race cache).2.1⟩

/-! ## The claims -/

/-- C1: a cache entry written at time `T` with payload `P` is, for any
max-age `M` (minutes), served from the cache at every time `T + e1` with
`e1 < M` — the call returns `P`, leaves the store untouched and issues no
network GET — while a call at any time `T + M + e2` fails the freshness
test and falls through to a network GET on the endpoint. -/
theorem claim_C1 (net : Network) (ep k : String) (M T e1 e2 : Nat) (P : Json)
    (c : CacheStore) (hlook : assocLookup c k = some ⟨.valid T, P⟩)
    (h1 : e1 < M) :
    fetch_with_cache net (T + e1) ep k M false c = ⟨.ok P, c, []⟩ ∧
      (fetch_with_cache net (T + M + e2) ep k M false c).calls = [ep] := by
  constructor
  · apply fetch_fresh
    refine ⟨⟨.valid T, P⟩, hlook, ?_, rfl⟩
    simp only [freshHit, decide_eq_true_eq]
    push_cast
    omega
  · have hmiss : cacheHit (T + M + e2) M false c k = none := by
      unfold cacheHit
      rw [hlook]
      have hstale : freshHit (T + M + e2) M ⟨.valid T, P⟩ = false := by
        simp only [freshHit, decide_eq_false_iff_not]
        push_cast
        omega
      simp [hstale]
    rw [fetch_with_cache_miss net (T + M + e2) ep k M false c hmiss]
    unfold networkFetch
    cases net ep <;> rfl

theorem claim_C1_witness :
    fetch_with_cache (fun _ => .error ()) 13 "e" "k" 5 false
        [("k", ⟨.valid 10, .str "P"⟩)] =
      ⟨.ok (.str "P"), [("k", ⟨.valid 10, .str "P"⟩)], []⟩ ∧
      (fetch_with_cache (fun _ => .error ()) 15 "e" "k" 5 false
        [("k", ⟨.valid 10, .str "P"⟩)]).calls = ["e"] :=
  claim_C1 (fun _ => .error ()) "e" "k" 5 10 3 0 (.str "P")
    [("k", ⟨.valid 10, .str "P"⟩)] rfl (by decide)

/-- C2 (counterexample): the claim says an entry whose `"time"` field is
missing is treated as expired, i.e. the call proceeds to the network
fetch.  In the source, `cached.get("time", now)` substitutes the current
instant for a missing `"time"`, so the entry passes the freshness test:
at a concrete store holding `"cached"` under a timestamp-less entry, the
call returns the cached payload and issues no network GET (the network
would have answered `"network"`). -/
theorem claim_C2_counterexample :
    fetch_with_cache (fun _ => .ok (.str "network")) 100 "e" "k" 1440 false
        [("k", ⟨.missing, .str "cached"⟩)] =
      ⟨.ok (.str "cached"), [("k", ⟨.missing, .str "cached"⟩)], []⟩ := rfl

/-- C2 (amended): an entry whose timestamp is present but unparseable is
treated as expired — the call behaves exactly like the network path and
never raises — while an entry whose timestamp field is missing is
defaulted to the current instant, so for every positive max-age the
cached payload is returned with no network call and no store change. -/
theorem claim_C2 (net : Network) (now : Nat) (ep ep2 k k2 : String) (M M2 : Nat)
    (c c2 : CacheStore) (P P2 : Json) (raw : String)
    (hmal : assocLookup c k = some ⟨.malformed raw, P⟩)
    (hmiss : assocLookup c2 k2 = some ⟨.missing, P2⟩) (hM2 : 0 < M2) :
    fetch_with_cache net now ep k M false c = networkFetch net now ep k c ∧
      fetch_with_cache net now ep2 k2 M2 false c2 = ⟨.ok P2, c2, []⟩ := by
  constructor
  · apply fetch_with_cache_miss
    unfold cacheHit
    rw [hmal]
    simp [freshHit]
  · apply fetch_fresh
    refine ⟨⟨.missing, P2⟩, hmiss, ?_, rfl⟩
    simp only [freshHit, decide_eq_true_eq]
    exact_mod_cast hM2

theorem claim_C2_witness :
    fetch_with_cache (fun _ => .ok (.str "N")) 7 "e" "k" 30 false
        [("k", ⟨.malformed "zz", .str "P"⟩)] =
      networkFetch (fun _ => .ok (.str "N")) 7 "e" "k"
        [("k", ⟨.malformed "zz", .str "P"⟩)] ∧
      fetch_with_cache (fun _ => .ok (.str "N")) 7 "e2" "j" 30 false
        [("j", ⟨.missing, .str "Q"⟩)] =
      ⟨.ok (.str "Q"), [("j", ⟨.missing, .str "Q"⟩)], []⟩ :=
  claim_C2 (fun _ => .ok (.str "N")) 7 "e" "e2" "k" "j" 30 30
    [("k", ⟨.malformed "zz", .str "P"⟩)] [("j", ⟨.missing, .str "Q"⟩)]
    (.str "P") (.str "Q") "zz" rfl rfl (by decide)

/-- C7: when a `fetch_with_cache` call is not served from the cache and
the GET fails (non-2xx, timeout or unparseable body, all modelled by the
network oracle answering an error), the call fails with that error and
the persisted store is exactly the store that was loaded — no entry is
written or updated for the requested key. -/
theorem claim_C7 (net : Network) (now : Nat) (ep k : String) (e : Nat) (f : Bool)
    (c : CacheStore) (hmiss : cacheHit now e f c k = none)
    (herr : net ep = .error ()) :
    fetch_with_cache net now ep k e f c = ⟨.error (), c, [ep]⟩ := by
  rw [fetch_with_cache_miss net now ep k e f c hmiss]
  simp [networkFetch, herr]

theorem claim_C7_witness :
    fetch_with_cache (fun _ => .error ()) 3 "e" "k" 60 false
        [("a", ⟨.valid 0, .str "x"⟩)] =
      ⟨.error (), [("a", ⟨.valid 0, .str "x"⟩)], ["e"]⟩ :=
  claim_C7 (fun _ => .error ()) 3 "e" "k" 60 false
    [("a", ⟨.valid 0, .str "x"⟩)] rfl rfl

/-- C8: `set_cache` serializes the full mapping to the temporary path and
installs it over the canonical path with an atomic rename, so the
canonical file holds the complete new serialization exactly when both
steps succeed and is otherwise untouched — never empty or partially
written; and every failure inside the attempt is swallowed, the call
returning normally with whatever state the attempt reached. -/
theorem claim_C8 (fs : FileSys) (data : CacheStore) (writeOk : Bool)
    (raw : String) (renameOk : Bool) :
    (set_cache fs data writeOk raw renameOk).canonical =
        (if writeOk && renameOk then some (.complete data) else fs.canonical) ∧
      set_cache fs data writeOk raw renameOk =
        (set_cache_attempt fs data writeOk raw renameOk).1 := by
  refine ⟨?_, rfl⟩
  unfold set_cache set_cache_attempt
  cases writeOk <;> cases renameOk <;> simp

/-- C10: a `fetch_with_cache` call that succeeds rewrites at most its own
key: the persisted store agrees with the loaded store on every other key
(the code reads the full mapping, updates the single key and writes the
full mapping back). -/
theorem claim_C10 (net : Network) (now : Nat) (ep k : String) (e : Nat) (f : Bool)
    (c : CacheStore) (d : Json) (k' : String)
    (_hok : (fetch_with_cache net now ep k e f c).res = .ok d) (hne : k' ≠ k) :
    assocLookup (fetch_with_cache net now ep k e f c).cache k' = assocLookup c k' :=
  fetch_frame net now ep k e f c k' hne

theorem claim_C10_witness :
    assocLookup (fetch_with_cache (fun _ => .ok (.str "D")) 9 "e" "k" 60 false
        [("a", ⟨.valid 2, .str "x"⟩)]).cache "a" =
      assocLookup [("a", ⟨.valid 2, .str "x"⟩)] "a" :=
  claim_C10 (fun _ => .ok (.str "D")) 9 "e" "k" 60 false
    [("a", ⟨.valid 2, .str "x"⟩)] (.str "D") "a" rfl (by decide)

/-- C3: every event sequence returned by a reconciliation pass satisfies
the status invariant: each event's `Status` is exactly one of
`scheduled`, `completed`, `completed_no_results` (the three strings are
pairwise distinct, so exactly one equation holds), its attached `Results`
value is non-empty precisely when the status is `completed`, and in the
two other statuses the `Results` field is the literal empty list. -/
theorem claim_C3 (net : Network) (now : Nat) (today : Date) (season : String)
    (force : Bool) (cache : CacheStore) (r : RecOut)
    (h : get_all_races_season net now today season force cache = .ok r) :
    r.events.Forall StatusOk := by
  unfold get_all_races_season at h
  cases hf : fetch_with_cache net now (schedEndpoint season) (schedKey season)
      1440 force cache with
  | mk res c1 calls =>
    rw [hf] at h
    cases res with
    | ok sched =>
      dsimp only at h
      injection h with h2
      subst h2
      exact reconcile_statusOk net now today season force (getRaces sched) c1
    | error u =>
      dsimp only at h
      simp at h

/-- C4: failure handling of the reconciliation pass.  The pass raises to
the caller exactly when the initial schedule fetch raises; the event list
always has one entry per scheduled race; and when the per-race fetch of
the first race of a (sub)schedule fails, that race degrades to
`completed_no_results` with empty results while the remaining races are
processed exactly as they would have been on their own. -/
theorem claim_C4 (net : Network) (now : Nat) (today : Date) (season : String)
    (force : Bool) (cache c : CacheStore) (races rest : List Json) (race : Json)
    (hsf : shouldFetch today race = true)
    (herr : (fetch_with_cache net now (raceEndpoint season (roundStr race))
      (raceKey season (roundStr race)) 60 force c).res = .error ()) :
    (get_all_races_season net now today season force cache = .error () ↔
        (fetch_with_cache net now (schedEndpoint season) (schedKey season)
          1440 force cache).res = .error ()) ∧
      (reconcile_races net now today season force races c).events.length = races.length ∧
      reconcile_races net now today season force (race :: rest) c =
        ⟨mkNoResults race :: (reconcile_races net now today season force rest c).events,
          (reconcile_races net now today season force rest c).cache,
          raceEndpoint season (roundStr race) ::
            (reconcile_races net now today season force rest c).attempts⟩ := by
  refine ⟨?_, reconcile_events_length net now today season force races c, ?_⟩
  · unfold get_all_races_season
    cases hf : fetch_with_cache net now (schedEndpoint season) (schedKey season)
        1440 force cache with
    | mk res c1 calls =>
      cases res with
      | ok sched => dsimp only; simp
      | error u => cases u; dsimp only; simp
  · obtain ⟨hmiss, hnet, hfull⟩ := fetch_err net now (raceEndpoint season (roundStr race))
      (raceKey season (roundStr race)) 60 force c herr
    rw [reconcile_races_cons,
      reconcile_one_err net now today season force race c c
        [raceEndpoint season (roundStr race)] hsf hfull]
    rfl

/-- C5: in a successful reconciliation pass the per-race fetch attempts
are exactly the schedule fetch followed by one results fetch for each
race whose parsed date is today or earlier, in schedule order — so a
race dated today or in the past always has its results fetch issued and
a race dated strictly in the future never does — and every race dated
strictly after the current date is returned as a `scheduled` event with
empty results. -/
theorem claim_C5 (net : Network) (now : Nat) (today : Date) (season : String)
    (force : Bool) (cache : CacheStore) (r : RecOut) (sched : Json)
    (c1 : CacheStore) (calls : List String) (i : Nat) (d : Date)
    (hs : fetch_with_cache net now (schedEndpoint season) (schedKey season)
      1440 force cache = ⟨.ok sched, c1, calls⟩)
    (h : get_all_races_season net now today season force cache = .ok r)
    (hi : i < (getRaces sched).length)
    (hdate : raceDate (getRaces sched)[i] = some d)
    (hfut : dateLe d today = false) :
    r.attempts = schedEndpoint season ::
        ((getRaces sched).filter (shouldFetch today)).map
          (fun ra => raceEndpoint season (roundStr ra)) ∧
      r.events[i]? = some (mkScheduled (getRaces sched)[i]) := by
  unfold get_all_races_season at h
  rw [hs] at h
  dsimp only at h
  injection h with h2
  subst h2
  have hsf : shouldFetch today (getRaces sched)[i] = false := by
    unfold shouldFetch
    rw [hdate]
    exact hfut
  constructor
  · dsimp only
    rw [reconcile_attempts net now today season force (getRaces sched) c1]
  · dsimp only
    exact reconcile_events_future net now today season force (getRaces sched) c1 i hi hsf

/-- C9: re-running a reconciliation pass with `force = false` on the
cache store the first pass persisted, at the same instant, reproduces the
first pass exactly — the same event sequence, the same store and the same
attempt list — because every entry the first pass wrote (or found fresh)
is still fresh, so every fetch of the second pass is a cache hit or fails
identically. -/
theorem claim_C9 (net : Network) (now : Nat) (today : Date) (season : String)
    (cache : CacheStore) (r : RecOut)
    (h : get_all_races_season net now today season false cache = .ok r) :
    get_all_races_season net now today season false r.cache = .ok r := by
  unfold get_all_races_season at h ⊢
  cases hf : fetch_with_cache net now (schedEndpoint season) (schedKey season)
      1440 false cache with
  | mk res c1 calls =>
    rw [hf] at h
    cases res with
    | error u => dsimp only at h; simp at h
    | ok sched =>
      dsimp only at h
      injection h with h2
      subst h2
      have hres : (fetch_with_cache net now (schedEndpoint season) (schedKey season)
          1440 false cache).res = .ok sched := by rw [hf]
      have hfresh1 : FreshAt now 1440 c1 (schedKey season) sched := by
        have hx := fetch_ok_fresh net now (schedEndpoint season) (schedKey season)
          1440 cache sched (by norm_num) hres
        rw [hf] at hx
        exact hx
      have hlook : assocLookup
          (reconcile_races net now today season false (getRaces sched) c1).cache
          (schedKey season) = assocLookup c1 (schedKey season) :=
        reconcile_preserves_other_keys net now today season false (getRaces sched) c1
          (schedKey season) (fun round => schedKey_ne_raceKey season season round)
      have hfresh2 : FreshAt now 1440
          (reconcile_races net now today season false (getRaces sched) c1).cache
          (schedKey season) sched := by
        obtain ⟨en, hl, hfr2, hd⟩ := hfresh1
        exact ⟨en, by rw [hlook]; exact hl, hfr2, hd⟩
      have hsched2 := fetch_fresh net now (schedEndpoint season) (schedKey season)
        1440 (reconcile_races net now today season false (getRaces sched) c1).cache
        sched hfresh2
      dsimp only
      rw [hsched2]
      dsimp only
      rw [reconcile_self_stable net now today season (getRaces sched) c1]

/-- C6: the last-N result queries are two-phase.  After the 1-item
metadata fetch has reported a total, the only other fetch the query
issues is the window fetch whose endpoint carries `limit = N` and
`offset = windowStart total N`, that is `max(0, total - N)` — for a
driver with 25 total results and N = 10 this requests the window of the
ten results at 0-indexed offsets 15 through 24, the most recent ten.
The same holds for the constructor query. -/
theorem claim_C6 (net : Network) (now : Nat) (driverId constructorId : String)
    (limitD limitC : Nat) (cacheD cacheC : CacheStore)
    (metaD metaC : Json) (cD cC : CacheStore) (ncD ncC : List String)
    (rsD rsC : List Json) (c2D c2C : CacheStore) (attD attC : List String)
    (hmD : fetch_with_cache net now (driverMetaEndpoint driverId)
      (driverMetaKey driverId) 1440 false cacheD = ⟨.ok metaD, cD, ncD⟩)
    (hD : get_driver_last_results net now driverId limitD cacheD = .ok (rsD, c2D, attD))
    (hmC : fetch_with_cache net now (constructorMetaEndpoint constructorId)
      (constructorMetaKey constructorId) 1440 false cacheC = ⟨.ok metaC, cC, ncC⟩)
    (hC : get_constructor_last_results net now constructorId limitC cacheC =
      .ok (rsC, c2C, attC)) :
    attD = [driverMetaEndpoint driverId,
        driverWindowEndpoint driverId limitD (windowStart (totalOf metaD) limitD)] ∧
      attC = [constructorMetaEndpoint constructorId,
        constructorWindowEndpoint constructorId limitC
          (windowStart (totalOf metaC) limitC)] := by
  constructor
  · unfold get_driver_last_results at hD
    rw [hmD] at hD
    dsimp only at hD
    cases hw : fetch_with_cache net now
        (driverWindowEndpoint driverId limitD (windowStart (totalOf metaD) limitD))
        (driverWindowKey driverId limitD (windowStart (totalOf metaD) limitD))
        1440 false cD with
    | mk resW cW callsW =>
      rw [hw] at hD
      cases resW with
      | error u => dsimp only at hD; simp at hD
      | ok dataW =>
        dsimp only at hD
        injection hD with h2
        have h3 := congrArg (fun t => t.2.2) h2
        dsimp only at h3
        exact h3.symm
  · unfold get_constructor_last_results at hC
    rw [hmC] at hC
    dsimp only at hC
    cases hw : fetch_with_cache net now
        (constructorWindowEndpoint constructorId limitC (windowStart (totalOf metaC) limitC))
        (constructorWindowKey constructorId limitC (windowStart (totalOf metaC) limitC))
        1440 false cC with
    | mk resW cW callsW =>
      rw [hw] at hC
      cases resW with
      | error u => dsimp only at hC; simp at hC
      | ok dataW =>
        dsimp only at hC
        injection hC with h2
        have h3 := congrArg (fun t => t.2.2) h2
        dsimp only at h3
        exact h3.symm

theorem claim_C6_witness :
    [driverMetaEndpoint "ham", driverWindowEndpoint "ham" 10 15] =
        [driverMetaEndpoint "ham",
          driverWindowEndpoint "ham" 10 (windowStart (totalOf wMeta) 10)] ∧
      [constructorMetaEndpoint "fer", constructorWindowEndpoint "fer" 10 15] =
        [constructorMetaEndpoint "fer",
          constructorWindowEndpoint "fer" 10 (windowStart (totalOf wMeta) 10)] :=
  claim_C6 wNetLast 5 "ham" "fer" 10 10 [] [] wMeta wMeta
    [(driverMetaKey "ham", ⟨.valid 5, wMeta⟩)]
    [(constructorMetaKey "fer", ⟨.valid 5, wMeta⟩)]
    [driverMetaEndpoint "ham"] [constructorMetaEndpoint "fer"]
    [] []
    [(driverMetaKey "ham", ⟨.valid 5, wMeta⟩),
      (driverWindowKey "ham" 10 15, ⟨.valid 5, .obj []⟩)]
    [(constructorMetaKey "fer", ⟨.valid 5, wMeta⟩),
      (constructorWindowKey "fer" 10 15, ⟨.valid 5, .obj []⟩)]
    [driverMetaEndpoint "ham", driverWindowEndpoint "ham" 10 15]
    [constructorMetaEndpoint "fer", constructorWindowEndpoint "fer" 10 15]
    rfl rfl rfl rfl

theorem claim_C3_witness : wOut.events.Forall StatusOk :=
  claim_C3 wNet 100 wToday "2025" false [] wOut rfl

theorem claim_C4_witness :
    (get_all_races_season wNetFail 100 wToday "2025" false [] = .error () ↔
        (fetch_with_cache wNetFail 100 (schedEndpoint "2025") (schedKey "2025")
          1440 false []).res = .error ()) ∧
      (reconcile_races wNetFail 100 wToday "2025" false [wRace1] []).events.length =
        ([wRace1] : List Json).length ∧
      reconcile_races wNetFail 100 wToday "2025" false [wRace1] [] =
        ⟨mkNoResults wRace1 ::
            (reconcile_races wNetFail 100 wToday "2025" false [] []).events,
          (reconcile_races wNetFail 100 wToday "2025" false [] []).cache,
          raceEndpoint "2025" (roundStr wRace1) ::
            (reconcile_races wNetFail 100 wToday "2025" false [] []).attempts⟩ :=
  claim_C4 wNetFail 100 wToday "2025" false [] [] [wRace1] [] wRace1 rfl rfl

theorem claim_C5_witness :
    wOut.attempts = schedEndpoint "2025" ::
        (([wRace1, wRace2] : List Json).filter (shouldFetch wToday)).map
          (fun ra => raceEndpoint "2025" (roundStr ra)) ∧
      wOut.events[1]? = some (mkScheduled wRace2) :=
  claim_C5 wNet 100 wToday "2025" false [] wOut wSched
    [(schedKey "2025", ⟨.valid 100, wSched⟩)] [schedEndpoint "2025"]
    1 ⟨2025, 12, 25⟩ rfl rfl (by decide) rfl rfl

theorem claim_C9_witness :
    get_all_races_season wNet 100 wToday "2025" false wOut.cache = .ok wOut :=
  claim_C9 wNet 100 wToday "2025" [] wOut rfl
